import Mathlib

/-
  Verification development for the solution-snapshot subsystem of the
  constraint-programming solver (constraint_solver/assignment.cc).

  Shallow embedding: elements and assignments are Lean structures; the live
  variables and the propagation queue form an explicit `World` threaded through
  the store/restore operations; a constraint failure raised by the propagation
  engine is an `Except.error` carrying the world at the point of failure (the
  side effects already committed remain, matching the longjmp-style failure of
  the engine).  Machine integers are `Int` (no arithmetic other than copies and
  comparisons occurs, so no overflow modelling is needed).
-/

namespace Assign

/-- Smallest 64-bit signed integer (base/integral_types.h `kint64min`). -/
def kint64min : Int := -(2 ^ 63)

/-- Largest 64-bit signed integer (base/integral_types.h `kint64max`). -/
def kint64max : Int := 2 ^ 63 - 1

/-- Snapshot element for one bounded-integer variable.  Fields `var_`, `min_`,
`max_` are from `IntVarElement` in assignment.cc; `activated_` is the flag of
the base class `AssignmentElement`, modelled from the spec: a soft activation
flag defaulting to `true` on construction.  The variable is a weak reference,
modelled as an optional identifier (`none` is the NULL variable). -/
structure IntVarElement where
  var_ : Option Nat
  min_ : Int
  max_ : Int
  activated_ : Bool
deriving DecidableEq, Repr

/-- Snapshot element for one interval variable (`IntervalVarElement` in
assignment.cc); `activated_` is the base-class flag as above. -/
structure IntervalVarElement where
  var_ : Option Nat
  start_min_ : Int
  start_max_ : Int
  duration_min_ : Int
  duration_max_ : Int
  end_min_ : Int
  end_max_ : Int
  performed_min_ : Int
  performed_max_ : Int
  activated_ : Bool
deriving DecidableEq, Repr

/-- Live state of a bounded-integer variable, modelled from the spec: a
contiguous [min, max] range exposed through `Min()`/`Max()` accessors. -/
structure IntVarState where
  min : Int
  max : Int
deriving DecidableEq, Repr

/-- Live state of an interval variable, modelled from the spec: start, duration
and end ranges plus the ternary performed status encoded by two bounds. -/
structure IntervalVarState where
  startMin : Int
  startMax : Int
  durationMin : Int
  durationMax : Int
  endMin : Int
  endMax : Int
  performedMin : Int
  performedMax : Int
deriving DecidableEq, Repr

/-- The external world: the live integer variables, the live interval
variables (both total maps from variable identifiers), and the propagation
engine's freeze depth for its notification queue (spec section 5: `FreezeQueue`
increments the suspension, `UnfreezeQueue` releases it). -/
structure World where
  ivar : Nat → IntVarState
  ivv : Nat → IntervalVarState
  freeze : Nat

/-- Replace the live state of integer variable `i`. -/
def World.updI (w : World) (i : Nat) (s : IntVarState) : World :=
  { w with ivar := fun j => if j = i then s else w.ivar j }

/-- Replace the live state of interval variable `i`. -/
def World.updIv (w : World) (i : Nat) (s : IntervalVarState) : World :=
  { w with ivv := fun j => if j = i then s else w.ivv j }

/-- Modelled from the spec: the live integer variable's `SetRange` narrows the
domain to the intersection with [mi, ma] and raises a constraint failure
(`none`) exactly when that intersection is empty (spec section 8). -/
def IntVarState.setRange (s : IntVarState) (mi ma : Int) : Option IntVarState :=
  let nmin := Max.max s.min mi
  let nmax := Min.min s.max ma
  if nmax < nmin then none else some ⟨nmin, nmax⟩

/-- Modelled from the spec: the live interval variable's `SetStartRange`
narrows the start range to the intersection, failing iff it becomes empty. -/
def IntervalVarState.setStartRange (s : IntervalVarState) (mi ma : Int) :
    Option IntervalVarState :=
  let nmin := max s.startMin mi
  let nmax := min s.startMax ma
  if nmax < nmin then none else some { s with startMin := nmin, startMax := nmax }

/-- Modelled from the spec: `SetDurationRange` on the live interval variable. -/
def IntervalVarState.setDurationRange (s : IntervalVarState) (mi ma : Int) :
    Option IntervalVarState :=
  let nmin := max s.durationMin mi
  let nmax := min s.durationMax ma
  if nmax < nmin then none else some { s with durationMin := nmin, durationMax := nmax }

/-- Modelled from the spec: `SetEndRange` on the live interval variable. -/
def IntervalVarState.setEndRange (s : IntervalVarState) (mi ma : Int) :
    Option IntervalVarState :=
  let nmin := max s.endMin mi
  let nmax := min s.endMax ma
  if nmax < nmin then none else some { s with endMin := nmin, endMax := nmax }

/-- Modelled from the spec: the live interval variable's `SetPerformed` forces
the performed status to the exact value `v`, raising a constraint failure when
`v` is outside the current performed range (spec section 8: "a forced
performed status is infeasible"). -/
def IntervalVarState.setPerformed (s : IntervalVarState) (v : Int) :
    Option IntervalVarState :=
  if s.performedMin ≤ v ∧ v ≤ s.performedMax then
    some { s with performedMin := v, performedMax := v }
  else none

/-- IntVarElement::Reset (assignment.cc lines 40-44): rebind the weak
reference and widen the stored bounds to the full 64-bit signed range.  The
body does not mention the base-class activation flag, so it is carried over
unchanged. -/
def IntVarElement.reset (e : IntVarElement) (var : Option Nat) : IntVarElement :=
  { var_ := var, min_ := kint64min, max_ := kint64max, activated_ := e.activated_ }

/-- IntVarElement::IntVarElement(var) (assignment.cc lines 36-38): the base
class constructor sets the activation flag to true (modelled from the spec:
elements default to active on construction), then `Reset(var)` runs. -/
def IntVarElement.ofVar (var : Option Nat) : IntVarElement :=
  IntVarElement.reset { var_ := none, min_ := 0, max_ := 0, activated_ := true } var

/-- IntVarElement::Copy (assignment.cc lines 52-60): `SetRange` with the
source's bounds, take over its variable, and copy its activation flag. -/
def IntVarElement.copyFrom (e src : IntVarElement) : IntVarElement :=
  { e with min_ := src.min_, max_ := src.max_, var_ := src.var_,
           activated_ := src.activated_ }

/-- IntVarElement::Clone (assignment.cc lines 46-50): allocate a default
element and `Copy` the source into it. -/
def IntVarElement.clone (e : IntVarElement) : IntVarElement :=
  IntVarElement.copyFrom (IntVarElement.ofVar none) e

/-- IntVarElement::DebugString (assignment.cc lines 64-75). -/
def IntVarElement.debugString (e : IntVarElement) : String :=
  if e.activated_ then
    if e.min_ = e.max_ then "(" ++ toString e.min_ ++ ")"
    else "(" ++ toString e.min_ ++ ".." ++ toString e.max_ ++ ")"
  else "(...)"

/-- Modelled from the spec: `IntVarElement::Store` (declared in
constraint_solver.h, body not under src/) reads the one live accessor pair
`Min()/Max()` into the stored fields.  An element bound to the NULL variable
has no live state to read; it is left unchanged. -/
def IntVarElement.store (e : IntVarElement) (w : World) : IntVarElement :=
  match e.var_ with
  | none => e
  | some i => { e with min_ := (w.ivar i).min, max_ := (w.ivar i).max }

/-- Modelled from the spec: `IntVarElement::Restore` (declared in
constraint_solver.h, body not under src/) pushes the stored range onto the
live variable through its `SetRange`; a deactivated element's stored bounds
are ignored by Restore (spec section 4.1).  A failure of the live `SetRange`
is propagated as `Except.error` carrying the world at that point. -/
def IntVarElement.restore (e : IntVarElement) (w : World) : Except World World :=
  if e.activated_ then
    match e.var_ with
    | none => Except.ok w
    | some i =>
      match (w.ivar i).setRange e.min_ e.max_ with
      | none => Except.error w
      | some s => Except.ok (w.updI i s)
  else Except.ok w

/-- IntervalVarElement::Reset (assignment.cc lines 87-97): rebind, widen every
stored timing bound to the full 64-bit signed range and set the performed
status to undecided (0, 1).  The body does not mention the base-class
activation flag, so it is carried over unchanged. -/
def IntervalVarElement.reset (e : IntervalVarElement) (var : Option Nat) :
    IntervalVarElement :=
  { var_ := var,
    start_min_ := kint64min, start_max_ := kint64max,
    duration_min_ := kint64min, duration_max_ := kint64max,
    end_min_ := kint64min, end_max_ := kint64max,
    performed_min_ := 0, performed_max_ := 1,
    activated_ := e.activated_ }

/-- IntervalVarElement::IntervalVarElement(var) (assignment.cc lines 83-85):
base-class construction (active) followed by `Reset(var)`. -/
def IntervalVarElement.ofVar (var : Option Nat) : IntervalVarElement :=
  IntervalVarElement.reset
    { var_ := none, start_min_ := 0, start_max_ := 0, duration_min_ := 0,
      duration_max_ := 0, end_min_ := 0, end_max_ := 0, performed_min_ := 0,
      performed_max_ := 0, activated_ := true } var

/-- IntervalVarElement::Copy (assignment.cc lines 105-116): copy every stored
range, the performed range, the variable and the activation flag. -/
def IntervalVarElement.copyFrom (e src : IntervalVarElement) : IntervalVarElement :=
  { e with start_min_ := src.start_min_, start_max_ := src.start_max_,
           duration_min_ := src.duration_min_, duration_max_ := src.duration_max_,
           end_min_ := src.end_min_, end_max_ := src.end_max_,
           performed_min_ := src.performed_min_, performed_max_ := src.performed_max_,
           var_ := src.var_, activated_ := src.activated_ }

/-- IntervalVarElement::Clone (assignment.cc lines 99-103). -/
def IntervalVarElement.clone (e : IntervalVarElement) : IntervalVarElement :=
  IntervalVarElement.copyFrom (IntervalVarElement.ofVar none) e

/-- IntervalVarElement::Store (assignment.cc lines 118-129): read the live
performed pair; only when the freshly stored `performed_max_` is nonzero read
the six live timing accessors into the stored fields.  An element bound to the
NULL variable has no live state to read; it is left unchanged. -/
def IntervalVarElement.store (e : IntervalVarElement) (w : World) :
    IntervalVarElement :=
  match e.var_ with
  | none => e
  | some i =>
    let s := w.ivv i
    let e1 := { e with performed_min_ := s.performedMin,
                       performed_max_ := s.performedMax }
    if e1.performed_max_ ≠ 0 then
      { e1 with start_min_ := s.startMin, start_max_ := s.startMax,
                duration_min_ := s.durationMin, duration_max_ := s.durationMax,
                end_min_ := s.endMin, end_max_ := s.endMax }
    else e1

/-- Timing half of IntervalVarElement::Restore (assignment.cc lines 135-139):
when `performed_max_ != 0`, push the stored start, duration and end ranges in
that order onto live interval variable `i`, committing each successful
narrowing and propagating the first constraint failure. -/
def IntervalVarElement.restoreTiming (e : IntervalVarElement) (i : Nat)
    (w1 : World) : Except World World :=
  if e.performed_max_ ≠ 0 then
    match (w1.ivv i).setStartRange e.start_min_ e.start_max_ with
    | none => Except.error w1
    | some s1 =>
      let w2 := w1.updIv i s1
      match (w2.ivv i).setDurationRange e.duration_min_ e.duration_max_ with
      | none => Except.error w2
      | some s2 =>
        let w3 := w2.updIv i s2
        match (w3.ivv i).setEndRange e.end_min_ e.end_max_ with
        | none => Except.error w3
        | some s3 => Except.ok (w3.updIv i s3)
  else Except.ok w1

/-- IntervalVarElement::Restore (assignment.cc lines 131-140): when the stored
performed status is decided (`performed_max_ == performed_min_`), force it on
the live variable first; then, when `performed_max_ != 0`, push the stored
start, duration and end ranges in that order (the timing half of the
sequential body is the helper `restoreTiming` above).  Each live setter may
raise a constraint failure, which propagates with the effects already
committed. -/
def IntervalVarElement.restore (e : IntervalVarElement) (w : World) :
    Except World World :=
  match e.var_ with
  | none => Except.ok w
  | some i =>
    if e.performed_max_ = e.performed_min_ then
      match (w.ivv i).setPerformed e.performed_min_ with
      | none => Except.error w
      | some s => e.restoreTiming i (w.updIv i s)
    else e.restoreTiming i w

/-- IntervalVarElement::DebugString (assignment.cc lines 144-163): the
activated branch opens with "(start = " and appends duration and status,
collapsing every single-value range; the deactivated branch returns "(...)". -/
def IntervalVarElement.debugString (e : IntervalVarElement) : String :=
  if e.activated_ then
    "(start = " ++ toString e.start_min_
      ++ (if e.start_max_ ≠ e.start_min_ then ".." ++ toString e.start_max_ else "")
      ++ ", duration = " ++ toString e.duration_min_
      ++ (if e.duration_max_ ≠ e.duration_min_ then ".." ++ toString e.duration_max_ else "")
      ++ ", status = " ++ toString e.performed_min_
      ++ (if e.performed_max_ ≠ e.performed_min_ then ".." ++ toString e.performed_max_ else "")
  else "(...)"

/-- Lookup by variable identity in an `AssignmentContainer` (modelled from the
spec: an ordered sequence of elements with an identity-keyed lookup; the first
element bound to the variable is found). -/
def findElem (varOf : α → Option Nat) : List α → Option Nat → Option α
  | [], _ => none
  | e :: rest, v => if varOf e = v then some e else findElem varOf rest v

/-- Existence check by variable identity (`AssignmentContainer::Contains`,
modelled from the spec: never fails). -/
def hasVar (varOf : α → Option Nat) : List α → Option Nat → Bool
  | [], _ => false
  | e :: rest, v => if varOf e = v then true else hasVar varOf rest v

/-- One step of `AssignmentContainer::Copy`, modelled from the spec (section
4.2): for the element `src` of the other container, find the matching element
of this container by variable identity and value-copy into it, or create a
fresh element bound to that variable and value-copy into it. -/
def copyStep (varOf : α → Option Nat) (copyE : α → α → α) (freshE : Option Nat → α)
    (acc : List α) (src : α) : List α :=
  if hasVar varOf acc (varOf src) then
    acc.map (fun x => if varOf x = varOf src then copyE x src else x)
  else acc ++ [copyE (freshE (varOf src)) src]

/-- AssignmentContainer::Copy, modelled from the spec (section 4.2): merge the
other container into this one, element by element in the other's order;
elements of this container absent from the other are left untouched. -/
def containerCopy (varOf : α → Option Nat) (copyE : α → α → α)
    (freshE : Option Nat → α) (this other : List α) : List α :=
  other.foldl (copyStep varOf copyE freshE) this

/-- Distinctness of the variables bound by the elements of a container (the
container invariant from the spec: each variable appears at most once). -/
def distinctVars (varOf : α → Option Nat) : List α → Bool
  | [] => true
  | e :: rest => !hasVar varOf rest (varOf e) && distinctVars varOf rest

/-- AssignmentContainer<IntVar, IntVarElement>::Copy. -/
def intContainerCopy (this other : List IntVarElement) : List IntVarElement :=
  containerCopy IntVarElement.var_ IntVarElement.copyFrom IntVarElement.ofVar
    this other

/-- AssignmentContainer<IntervalVar, IntervalVarElement>::Copy. -/
def intervalContainerCopy (this other : List IntervalVarElement) :
    List IntervalVarElement :=
  containerCopy IntervalVarElement.var_ IntervalVarElement.copyFrom
    IntervalVarElement.ofVar this other

/-- Modelled from the spec: `AssignmentContainer::Store` calls `Store()` on
every element in order; each store only reads live state, so the container
maps element-wise over the world. -/
def intContainerStore (c : List IntVarElement) (w : World) : List IntVarElement :=
  c.map (fun e => e.store w)

/-- Modelled from the spec: interval-container `Store`, element-wise. -/
def intervalContainerStore (c : List IntervalVarElement) (w : World) :
    List IntervalVarElement :=
  c.map (fun e => e.store w)

/-- Modelled from the spec: `AssignmentContainer::Restore` calls `Restore()`
on every element in order; a constraint failure aborts the walk, leaving the
effects committed so far. -/
def intContainerRestore : List IntVarElement → World → Except World World
  | [], w => Except.ok w
  | e :: rest, w =>
    match e.restore w with
    | Except.error w' => Except.error w'
    | Except.ok w' => intContainerRestore rest w'

/-- Modelled from the spec: interval-container `Restore`, element by element
in order, aborting on the first constraint failure. -/
def intervalContainerRestore : List IntervalVarElement → World → Except World World
  | [], w => Except.ok w
  | e :: rest, w =>
    match e.restore w with
    | Except.error w' => Except.error w'
    | Except.ok w' => intervalContainerRestore rest w'

/-- Assignment (assignment.cc): one integer-element container, one
interval-element container, the optional owned objective element
(`obj_element_`) and the weak reference to the objective variable
(`objective_`). -/
structure Assignment where
  int_var_container : List IntVarElement
  interval_var_container : List IntervalVarElement
  obj_element : Option IntVarElement
  objective : Option Nat
deriving DecidableEq, Repr

/-- Assignment::Assignment(Solver*) (assignment.cc lines 179-182): empty
containers, no objective. -/
def Assignment.empty : Assignment :=
  { int_var_container := [], interval_var_container := [],
    obj_element := none, objective := none }

/-- Assignment::Assignment(const Assignment*) (assignment.cc lines 167-177),
the copy-construction path behind `Solver::MakeAssignment(a)`: both containers
are copied by value; the objective element, when present, is freshly cloned
and the objective reference taken over; when absent both objective fields stay
NULL. -/
def Assignment.cloneA (a : Assignment) : Assignment :=
  match a.obj_element with
  | some e =>
    { int_var_container := a.int_var_container,
      interval_var_container := a.interval_var_container,
      obj_element := some e.clone,
      objective := a.objective }
  | none =>
    { int_var_container := a.int_var_container,
      interval_var_container := a.interval_var_container,
      obj_element := none,
      objective := none }

/-- Assignment::Store (assignment.cc lines 196-202): store both containers,
then the objective element when present. -/
def Assignment.storeA (a : Assignment) (w : World) : Assignment :=
  { a with int_var_container := intContainerStore a.int_var_container w,
           interval_var_container := intervalContainerStore a.interval_var_container w,
           obj_element := a.obj_element.map (fun e => e.store w) }

/-- FreezeQueue, modelled from the spec (section 5): suspend the propagation
engine's notification processing. -/
def freezeQueue (w : World) : World := { w with freeze := w.freeze + 1 }

/-- UnfreezeQueue, modelled from the spec (section 5): resume the propagation
engine's notification processing. -/
def unfreezeQueue (w : World) : World := { w with freeze := w.freeze - 1 }

/-- Assignment::Restore (assignment.cc lines 204-209): `FreezeQueue()`, restore
the integer container, restore the interval container, `UnfreezeQueue()` — a
straight-line sequence, so a constraint failure raised inside either container
restore propagates before the final `UnfreezeQueue()` runs. -/
def Assignment.restoreA (a : Assignment) (w : World) : Except World World :=
  let w1 := freezeQueue w
  match intContainerRestore a.int_var_container w1 with
  | Except.error w' => Except.error w'
  | Except.ok w2 =>
    match intervalContainerRestore a.interval_var_container w2 with
    | Except.error w' => Except.error w'
    | Except.ok w3 => Except.ok (unfreezeQueue w3)

/-- Assignment::AddObjective (assignment.cc lines 434-439): `CHECK` that no
objective element exists (a second call is a fatal contract violation,
modelled as `none`), then create the objective element bound to `v` and record
the objective variable. -/
def Assignment.addObjective (a : Assignment) (v : Option Nat) : Option Assignment :=
  if a.obj_element.isSome then none
  else some { a with obj_element := some (IntVarElement.ofVar v), objective := v }

/-- Assignment::HasObjective (assignment.cc lines 445-447). -/
def Assignment.hasObjective (a : Assignment) : Bool := a.obj_element.isSome

/-- Modelled from the spec: the element accessor `Min()` of the snapshot
element returns the stored lower bound. -/
def IntVarElement.minOf (e : IntVarElement) : Int := e.min_

/-- Modelled from the spec: the element accessor `Max()`. -/
def IntVarElement.maxOf (e : IntVarElement) : Int := e.max_

/-- Modelled from the spec: the element accessor `Bound()` holds when the
stored range is a single value. -/
def IntVarElement.bound (e : IntVarElement) : Bool := e.min_ = e.max_

/-- Modelled from the spec: the element accessor `Value()`, meaningful only on
a bound element, returns the stored value. -/
def IntVarElement.value (e : IntVarElement) : Int := e.min_

/-- Assignment::ObjectiveMin (assignment.cc lines 449-454): the objective
element's min, or 0 when no objective is set. -/
def Assignment.objectiveMin (a : Assignment) : Int :=
  match a.obj_element with
  | some e => e.minOf
  | none => 0

/-- Assignment::ObjectiveMax (assignment.cc lines 456-461). -/
def Assignment.objectiveMax (a : Assignment) : Int :=
  match a.obj_element with
  | some e => e.maxOf
  | none => 0

/-- Assignment::ObjectiveValue (assignment.cc lines 463-468). -/
def Assignment.objectiveValue (a : Assignment) : Int :=
  match a.obj_element with
  | some e => e.value
  | none => 0

/-- Assignment::ObjectiveBound (assignment.cc lines 470-475): degrades to
`true` when no objective is set. -/
def Assignment.objectiveBound (a : Assignment) : Bool :=
  match a.obj_element with
  | some e => e.bound
  | none => true

/-- Assignment::Copy (assignment.cc lines 552-563): merge both containers from
the other assignment; only when both assignments have an objective element,
`SetRange` this objective element to the other's bounds and copy its
activation flag.  Neither the objective element's variable nor the
`objective_` reference is written. -/
def Assignment.copyA (a other : Assignment) : Assignment :=
  let ic := intContainerCopy a.int_var_container other.int_var_container
  let vc := intervalContainerCopy a.interval_var_container other.interval_var_container
  match other.obj_element, a.obj_element with
  | some oe, some me =>
    { a with int_var_container := ic, interval_var_container := vc,
             obj_element := some { me with min_ := oe.min_, max_ := oe.max_,
                                           activated_ := oe.activated_ } }
  | _, _ =>
    { a with int_var_container := ic, interval_var_container := vc }

/-- Assignment::DebugString (assignment.cc lines 239-258): "Assignment(",
every integer element then every interval element as "name rendering | ", the
objective element's rendering when present and activated, and ")".  Variable
names live outside this core, so the rendering is parametrized by a naming
function. -/
def Assignment.debugString (names : Option Nat → String) (a : Assignment) : String :=
  "Assignment("
    ++ a.int_var_container.foldl
        (fun acc e => acc ++ names e.var_ ++ " " ++ e.debugString ++ " | ") ""
    ++ a.interval_var_container.foldl
        (fun acc e => acc ++ names e.var_ ++ " " ++ e.debugString ++ " | ") ""
    ++ (match a.obj_element with
        | some oe => if oe.activated_ then oe.debugString else ""
        | none => "")
    ++ ")"

/-- Final world of a store/restore outcome: on success the world returned, on
a constraint failure the world at the point of failure (the longjmp leaves the
committed side effects in place). -/
def worldOf : Except World World → World
  | Except.ok w => w
  | Except.error w => w

/-- Success test for a store/restore outcome. -/
def exOk : Except World World → Bool
  | Except.ok _ => true
  | Except.error _ => false

/-- C9: on an Assignment with no objective set, every objective getter
degrades to a neutral default instead of failing: `ObjectiveMin()`,
`ObjectiveMax()` and `ObjectiveValue()` each return 0, and `ObjectiveBound()`
returns true. -/
theorem objective_getters_default (a : Assignment) (h : a.obj_element = none) :
    a.objectiveMin = 0 ∧ a.objectiveMax = 0 ∧ a.objectiveValue = 0 ∧
      a.objectiveBound = true := by
  simp [Assignment.objectiveMin, Assignment.objectiveMax,
        Assignment.objectiveValue, Assignment.objectiveBound, h]

/-- Witness for C9 at the freshly constructed empty Assignment. -/
theorem objective_getters_default_witness :
    Assignment.empty.objectiveMin = 0 ∧ Assignment.empty.objectiveMax = 0 ∧
      Assignment.empty.objectiveValue = 0 ∧ Assignment.empty.objectiveBound = true :=
  objective_getters_default Assignment.empty rfl

/-- C6: the first `AddObjective` on an Assignment succeeds and sets the
objective slot (`HasObjective()` becomes true and `Objective()` returns the
given variable), and on the resulting Assignment any further `AddObjective`,
with the same or a different argument, is a fatal contract violation (the
`CHECK` aborts, modelled as `none`) rather than a replacement or a no-op. -/
theorem addObjective_once (a : Assignment) (v : Option Nat)
    (h : a.hasObjective = false) :
    (a.addObjective v).isSome = true ∧
      ((a.addObjective v).getD a).hasObjective = true ∧
      ((a.addObjective v).getD a).objective = v ∧
      ∀ u, ((a.addObjective v).getD a).addObjective u = none := by
  have hn : a.obj_element = none := by
    cases hoe : a.obj_element with
    | none => rfl
    | some e => simp [Assignment.hasObjective, hoe] at h
  refine ⟨?_, ?_, ?_, ?_⟩ <;>
    simp [Assignment.addObjective, Assignment.hasObjective, hn]

/-- Witness for C6: an empty Assignment accepts one objective; the second
`AddObjective`, with a different variable, aborts. -/
theorem addObjective_once_witness :
    (Assignment.empty.addObjective (some 0)).isSome = true ∧
      ((Assignment.empty.addObjective (some 0)).getD Assignment.empty).hasObjective
        = true ∧
      ((Assignment.empty.addObjective (some 0)).getD Assignment.empty).objective
        = some 0 ∧
      ((Assignment.empty.addObjective (some 0)).getD Assignment.empty).addObjective
        (some 1) = none := by
  have h := addObjective_once Assignment.empty (some 0) rfl
  exact ⟨h.1, h.2.1, h.2.2.1, h.2.2.2 (some 1)⟩

/-- Counterexample to C4: `Reset` does not mark the element active.  On a
deactivated integer element, `Reset` to a fresh variable leaves the element
deactivated, and likewise for a deactivated interval element; the claim says
both would be left in the activated state. -/
theorem reset_activation_counterexample :
    (IntVarElement.reset ⟨some 0, 3, 7, false⟩ (some 1)).activated_ = false ∧
      (IntervalVarElement.reset ⟨some 0, 1, 2, 3, 4, 5, 6, 0, 0, false⟩
        (some 1)).activated_ = false :=
  ⟨rfl, rfl⟩

/-- C4 (amended): for every element and every variable argument (including
null), `Reset` rebinds the element to that variable and sets the stored bounds
to the widest 64-bit signed range (and, for intervals, the performed status to
undecided 0..1), but it does not touch the activation flag: the flag keeps
whatever value it had, so a deactivated element stays deactivated. -/
theorem reset_amended (e : IntVarElement) (e2 : IntervalVarElement)
    (v u : Option Nat) :
    (e.reset v).var_ = v ∧ (e.reset v).min_ = kint64min ∧
      (e.reset v).max_ = kint64max ∧ (e.reset v).activated_ = e.activated_ ∧
      (e2.reset u).var_ = u ∧
      (e2.reset u).start_min_ = kint64min ∧ (e2.reset u).start_max_ = kint64max ∧
      (e2.reset u).duration_min_ = kint64min ∧ (e2.reset u).duration_max_ = kint64max ∧
      (e2.reset u).end_min_ = kint64min ∧ (e2.reset u).end_max_ = kint64max ∧
      (e2.reset u).performed_min_ = 0 ∧ (e2.reset u).performed_max_ = 1 ∧
      (e2.reset u).activated_ = e2.activated_ := by
  refine ⟨rfl, rfl, rfl, rfl, rfl, rfl, rfl, rfl, rfl, rfl, rfl, rfl, rfl, rfl⟩

/-- C5: for an interval element bound to a live variable whose `PerformedMax()`
reads 0, `Store()` writes only the performed pair and leaves the six stored
start/duration/end fields (and the binding and activation flag) untouched;
when `PerformedMax()` reads nonzero, `Store()` reads all of start, duration
and end bounds from the live variable as well. -/
theorem interval_store_unperformed (e : IntervalVarElement) (w : World) (i : Nat)
    (hv : e.var_ = some i) :
    ((w.ivv i).performedMax = 0 →
      (e.store w).performed_min_ = (w.ivv i).performedMin ∧
      (e.store w).performed_max_ = (w.ivv i).performedMax ∧
      (e.store w).start_min_ = e.start_min_ ∧
      (e.store w).start_max_ = e.start_max_ ∧
      (e.store w).duration_min_ = e.duration_min_ ∧
      (e.store w).duration_max_ = e.duration_max_ ∧
      (e.store w).end_min_ = e.end_min_ ∧
      (e.store w).end_max_ = e.end_max_ ∧
      (e.store w).var_ = e.var_ ∧
      (e.store w).activated_ = e.activated_) ∧
    ((w.ivv i).performedMax ≠ 0 →
      (e.store w).performed_min_ = (w.ivv i).performedMin ∧
      (e.store w).performed_max_ = (w.ivv i).performedMax ∧
      (e.store w).start_min_ = (w.ivv i).startMin ∧
      (e.store w).start_max_ = (w.ivv i).startMax ∧
      (e.store w).duration_min_ = (w.ivv i).durationMin ∧
      (e.store w).duration_max_ = (w.ivv i).durationMax ∧
      (e.store w).end_min_ = (w.ivv i).endMin ∧
      (e.store w).end_max_ = (w.ivv i).endMax) := by
  constructor <;> intro hz <;>
    simp [IntervalVarElement.store, hv, hz]

/-- Witness for C5: a concrete element over a live interval variable whose
performed range reads 0..0 keeps its stale stored timing fields. -/
theorem interval_store_unperformed_witness :
    ((IntervalVarElement.store ⟨some 0, 11, 12, 13, 14, 15, 16, 1, 1, true⟩
        ⟨fun _ => ⟨0, 0⟩, fun _ => ⟨20, 21, 22, 23, 24, 25, 0, 0⟩, 0⟩).start_min_ = 11 ∧
      (IntervalVarElement.store ⟨some 0, 11, 12, 13, 14, 15, 16, 1, 1, true⟩
        ⟨fun _ => ⟨0, 0⟩, fun _ => ⟨20, 21, 22, 23, 24, 25, 0, 0⟩, 0⟩).performed_max_ = 0) := by
  have h := interval_store_unperformed
    ⟨some 0, 11, 12, 13, 14, 15, 16, 1, 1, true⟩
    ⟨fun _ => ⟨0, 0⟩, fun _ => ⟨20, 21, 22, 23, 24, 25, 0, 0⟩, 0⟩ 0 rfl
  have h0 := h.1 rfl
  exact ⟨h0.2.2.1, h0.2.1.trans rfl⟩

/-- C8 evaluated at a failing input: the activated branch of
`IntervalVarElement::DebugString` never appends the closing parenthesis (the
source builds "(start = ...", appends duration and status, and returns),
while the deactivated branch returns the balanced "(...)". -/
theorem interval_debugString_missing_close :
    (IntervalVarElement.debugString ⟨some 0, 1, 2, 3, 3, 4, 5, 0, 1, true⟩
        = "(start = 1..2, duration = 3, status = 0..1") ∧
      (IntervalVarElement.debugString ⟨some 0, 1, 2, 3, 3, 4, 5, 0, 1, true⟩
        ≠ "(start = 1..2, duration = 3, status = 0..1)") ∧
      (IntervalVarElement.debugString ⟨some 0, 1, 2, 3, 3, 4, 5, 0, 1, false⟩
        = "(...)") := by
  refine ⟨rfl, ?_, rfl⟩
  decide

/-- Characterization of a successful `SetPerformed`: the performed range
collapses to the forced value and every timing field is untouched. -/
theorem setPerformed_some (s s' : IntervalVarState) (v : Int)
    (h : s.setPerformed v = some s') :
    s' = { s with performedMin := v, performedMax := v } := by
  unfold IntervalVarState.setPerformed at h
  split at h
  · injection h with h'
    exact h'.symm
  · exact Option.noConfusion h

/-- Characterization of a successful `SetStartRange`: the start range becomes
the intersection and every other field is untouched. -/
theorem setStartRange_some (s s' : IntervalVarState) (mi ma : Int)
    (h : s.setStartRange mi ma = some s') :
    s' = { s with startMin := Max.max s.startMin mi,
                  startMax := Min.min s.startMax ma } := by
  simp only [IntervalVarState.setStartRange] at h
  split at h
  · exact Option.noConfusion h
  · injection h with h'
    exact h'.symm

/-- Characterization of a successful `SetDurationRange`. -/
theorem setDurationRange_some (s s' : IntervalVarState) (mi ma : Int)
    (h : s.setDurationRange mi ma = some s') :
    s' = { s with durationMin := Max.max s.durationMin mi,
                  durationMax := Min.min s.durationMax ma } := by
  simp only [IntervalVarState.setDurationRange] at h
  split at h
  · exact Option.noConfusion h
  · injection h with h'
    exact h'.symm

/-- Characterization of a successful `SetEndRange`. -/
theorem setEndRange_some (s s' : IntervalVarState) (mi ma : Int)
    (h : s.setEndRange mi ma = some s') :
    s' = { s with endMin := Max.max s.endMin mi,
                  endMax := Min.min s.endMax ma } := by
  simp only [IntervalVarState.setEndRange] at h
  split at h
  · exact Option.noConfusion h
  · injection h with h'
    exact h'.symm

/-- Reading back the updated interval variable. -/
theorem updIv_self (w : World) (i : Nat) (s : IntervalVarState) :
    (w.updIv i s).ivv i = s := by
  simp [World.updIv]

/-- C1: for every interval element (bound to a live variable), `Restore()`
first forces the live performed status to `performed_min_` exactly when the
stored performed status is decided — a failure of that forcing aborts before
any timing push, and an undecided stored status leaves the live performed
range untouched — and then pushes the stored start, duration and end ranges
exactly when `performed_max_ ≠ 0`: when `performed_max_ = 0` the live timing
domains are left untouched on every outcome, and when `performed_max_ ≠ 0` a
successful restore narrows each live timing range to its intersection with
the stored range. -/
theorem interval_restore_performed_then_timing (e : IntervalVarElement)
    (w : World) (i : Nat) (hv : e.var_ = some i) :
    (e.performed_min_ = e.performed_max_ →
      (w.ivv i).setPerformed e.performed_min_ = none →
      e.restore w = Except.error w) ∧
    (e.performed_min_ = e.performed_max_ → exOk (e.restore w) = true →
      ((worldOf (e.restore w)).ivv i).performedMin = e.performed_min_ ∧
      ((worldOf (e.restore w)).ivv i).performedMax = e.performed_min_) ∧
    (e.performed_min_ ≠ e.performed_max_ →
      ((worldOf (e.restore w)).ivv i).performedMin = (w.ivv i).performedMin ∧
      ((worldOf (e.restore w)).ivv i).performedMax = (w.ivv i).performedMax) ∧
    (e.performed_max_ = 0 →
      ((worldOf (e.restore w)).ivv i).startMin = (w.ivv i).startMin ∧
      ((worldOf (e.restore w)).ivv i).startMax = (w.ivv i).startMax ∧
      ((worldOf (e.restore w)).ivv i).durationMin = (w.ivv i).durationMin ∧
      ((worldOf (e.restore w)).ivv i).durationMax = (w.ivv i).durationMax ∧
      ((worldOf (e.restore w)).ivv i).endMin = (w.ivv i).endMin ∧
      ((worldOf (e.restore w)).ivv i).endMax = (w.ivv i).endMax) ∧
    (e.performed_max_ ≠ 0 → exOk (e.restore w) = true →
      ((worldOf (e.restore w)).ivv i).startMin
          = Max.max (w.ivv i).startMin e.start_min_ ∧
      ((worldOf (e.restore w)).ivv i).startMax
          = Min.min (w.ivv i).startMax e.start_max_ ∧
      ((worldOf (e.restore w)).ivv i).durationMin
          = Max.max (w.ivv i).durationMin e.duration_min_ ∧
      ((worldOf (e.restore w)).ivv i).durationMax
          = Min.min (w.ivv i).durationMax e.duration_max_ ∧
      ((worldOf (e.restore w)).ivv i).endMin
          = Max.max (w.ivv i).endMin e.end_min_ ∧
      ((worldOf (e.restore w)).ivv i).endMax
          = Min.min (w.ivv i).endMax e.end_max_) := by
  by_cases hd : e.performed_max_ = e.performed_min_
  · cases hsp : (w.ivv i).setPerformed e.performed_min_ with
    | none =>
      have hr : e.restore w = Except.error w := by
        simp only [IntervalVarElement.restore, IntervalVarElement.restoreTiming, hv, if_pos hd, hsp]
      refine ⟨fun _ _ => hr, ?_, ?_, ?_, ?_⟩
      · intro _ hok
        rw [hr] at hok
        exact absurd hok (by simp [exOk])
      · intro hne
        exact absurd hd.symm hne
      · intro _
        simp [hr, worldOf]
      · intro _ hok
        rw [hr] at hok
        exact absurd hok (by simp [exOk])
    | some s =>
      have hs := setPerformed_some _ _ _ hsp
      by_cases hz : e.performed_max_ = 0
      · have hr : e.restore w = Except.ok (w.updIv i s) := by
          simp only [IntervalVarElement.restore, IntervalVarElement.restoreTiming, hv, if_pos hd, hsp,
            if_neg (not_not_intro hz)]
        refine ⟨?_, ?_, ?_, ?_, ?_⟩
        · intro _ hnone
          exact absurd hnone (Option.some_ne_none s)
        · intro _ _
          simp [hr, worldOf, updIv_self, hs]
        · intro hne
          exact absurd hd.symm hne
        · intro _
          simp [hr, worldOf, updIv_self, hs]
        · intro hnz _
          exact absurd hz hnz
      · cases hs1 : ((w.updIv i s).ivv i).setStartRange e.start_min_ e.start_max_ with
        | none =>
          have hr : e.restore w = Except.error (w.updIv i s) := by
            simp only [IntervalVarElement.restore, IntervalVarElement.restoreTiming, hv, if_pos hd, hsp,
              if_pos hz, hs1]
          refine ⟨?_, ?_, ?_, ?_, ?_⟩
          · intro _ hnone
            exact absurd hnone (Option.some_ne_none s)
          · intro _ _
            simp [hr, worldOf, updIv_self, hs]
          · intro hne
            exact absurd hd.symm hne
          · intro h0
            exact absurd h0 hz
          · intro _ hok
            rw [hr] at hok
            exact absurd hok (by simp [exOk])
        | some s1 =>
          have hseq := setStartRange_some _ _ _ _ hs1
          cases hs2 : (((w.updIv i s).updIv i s1).ivv i).setDurationRange
              e.duration_min_ e.duration_max_ with
          | none =>
            have hr : e.restore w
                = Except.error ((w.updIv i s).updIv i s1) := by
              simp only [IntervalVarElement.restore, IntervalVarElement.restoreTiming, hv, if_pos hd, hsp,
                if_pos hz, hs1, hs2]
            refine ⟨?_, ?_, ?_, ?_, ?_⟩
            · intro _ hnone
              exact absurd hnone (Option.some_ne_none s)
            · intro _ _
              simp [hr, worldOf, updIv_self, hseq, hs]
            · intro hne
              exact absurd hd.symm hne
            · intro h0
              exact absurd h0 hz
            · intro _ hok
              rw [hr] at hok
              exact absurd hok (by simp [exOk])
          | some s2 =>
            have hdeq := setDurationRange_some _ _ _ _ hs2
            cases hs3 : ((((w.updIv i s).updIv i s1).updIv i s2).ivv i).setEndRange
                e.end_min_ e.end_max_ with
            | none =>
              have hr : e.restore w
                  = Except.error (((w.updIv i s).updIv i s1).updIv i s2) := by
                simp only [IntervalVarElement.restore, IntervalVarElement.restoreTiming, hv, if_pos hd, hsp,
                  if_pos hz, hs1, hs2, hs3]
              refine ⟨?_, ?_, ?_, ?_, ?_⟩
              · intro _ hnone
                exact absurd hnone (Option.some_ne_none s)
              · intro _ _
                simp [hr, worldOf, updIv_self, hdeq, hseq, hs]
              · intro hne
                exact absurd hd.symm hne
              · intro h0
                exact absurd h0 hz
              · intro _ hok
                rw [hr] at hok
                exact absurd hok (by simp [exOk])
            | some s3 =>
              have heeq := setEndRange_some _ _ _ _ hs3
              have hr : e.restore w
                  = Except.ok ((((w.updIv i s).updIv i s1).updIv i s2).updIv i s3) := by
                simp only [IntervalVarElement.restore, IntervalVarElement.restoreTiming, hv, if_pos hd, hsp,
                  if_pos hz, hs1, hs2, hs3]
              refine ⟨?_, ?_, ?_, ?_, ?_⟩
              · intro _ hnone
                exact absurd hnone (Option.some_ne_none s)
              · intro _ _
                simp [hr, worldOf, updIv_self, heeq, hdeq, hseq, hs]
              · intro hne
                exact absurd hd.symm hne
              · intro h0
                exact absurd h0 hz
              · intro _ _
                simp [hr, worldOf, updIv_self, heeq, hdeq, hseq, hs]
  · by_cases hz : e.performed_max_ = 0
    · have hr : e.restore w = Except.ok w := by
        simp only [IntervalVarElement.restore, IntervalVarElement.restoreTiming, hv, if_neg hd,
          if_neg (not_not_intro hz)]
      refine ⟨?_, ?_, ?_, ?_, ?_⟩
      · intro heq _
        exact absurd heq.symm hd
      · intro heq _
        exact absurd heq.symm hd
      · intro _
        simp [hr, worldOf]
      · intro _
        simp [hr, worldOf]
      · intro hnz _
        exact absurd hz hnz
    · cases hs1 : (w.ivv i).setStartRange e.start_min_ e.start_max_ with
      | none =>
        have hr : e.restore w = Except.error w := by
          simp only [IntervalVarElement.restore, IntervalVarElement.restoreTiming, hv, if_neg hd, if_pos hz, hs1]
        refine ⟨?_, ?_, ?_, ?_, ?_⟩
        · intro heq _
          exact absurd heq.symm hd
        · intro heq _
          exact absurd heq.symm hd
        · intro _
          simp [hr, worldOf]
        · intro h0
          exact absurd h0 hz
        · intro _ hok
          rw [hr] at hok
          exact absurd hok (by simp [exOk])
      | some s1 =>
        have hseq := setStartRange_some _ _ _ _ hs1
        cases hs2 : ((w.updIv i s1).ivv i).setDurationRange
            e.duration_min_ e.duration_max_ with
        | none =>
          have hr : e.restore w = Except.error (w.updIv i s1) := by
            simp only [IntervalVarElement.restore, IntervalVarElement.restoreTiming, hv, if_neg hd, if_pos hz,
              hs1, hs2]
          refine ⟨?_, ?_, ?_, ?_, ?_⟩
          · intro heq _
            exact absurd heq.symm hd
          · intro heq _
            exact absurd heq.symm hd
          · intro _
            simp [hr, worldOf, updIv_self, hseq]
          · intro h0
            exact absurd h0 hz
          · intro _ hok
            rw [hr] at hok
            exact absurd hok (by simp [exOk])
        | some s2 =>
          have hdeq := setDurationRange_some _ _ _ _ hs2
          cases hs3 : (((w.updIv i s1).updIv i s2).ivv i).setEndRange
              e.end_min_ e.end_max_ with
          | none =>
            have hr : e.restore w
                = Except.error ((w.updIv i s1).updIv i s2) := by
              simp only [IntervalVarElement.restore, IntervalVarElement.restoreTiming, hv, if_neg hd, if_pos hz,
                hs1, hs2, hs3]
            refine ⟨?_, ?_, ?_, ?_, ?_⟩
            · intro heq _
              exact absurd heq.symm hd
            · intro heq _
              exact absurd heq.symm hd
            · intro _
              simp [hr, worldOf, updIv_self, hdeq, hseq]
            · intro h0
              exact absurd h0 hz
            · intro _ hok
              rw [hr] at hok
              exact absurd hok (by simp [exOk])
          | some s3 =>
            have heeq := setEndRange_some _ _ _ _ hs3
            have hr : e.restore w
                = Except.ok (((w.updIv i s1).updIv i s2).updIv i s3) := by
              simp only [IntervalVarElement.restore, IntervalVarElement.restoreTiming, hv, if_neg hd, if_pos hz,
                hs1, hs2, hs3]
            refine ⟨?_, ?_, ?_, ?_, ?_⟩
            · intro heq _
              exact absurd heq.symm hd
            · intro heq _
              exact absurd heq.symm hd
            · intro _
              simp [hr, worldOf, updIv_self, heeq, hdeq, hseq]
            · intro h0
              exact absurd h0 hz
            · intro _ _
              simp [hr, worldOf, updIv_self, heeq, hdeq, hseq]


/-- Witness for C1: restoring a decidedly-unperformed element (stored
performed range 0..0, stale stored timing bounds) onto a live interval with
performed range 0..1 and start range 0..100 forces performed to 0 and leaves
the live start range untouched. -/
theorem interval_restore_performed_then_timing_witness :
    ((worldOf (IntervalVarElement.restore ⟨some 0, 10, 20, 1, 5, 11, 25, 0, 0, true⟩
        ⟨fun _ => ⟨0, 1⟩, fun _ => ⟨0, 100, 1, 2, 0, 100, 0, 1⟩, 0⟩)).ivv 0).performedMin = 0 ∧
    ((worldOf (IntervalVarElement.restore ⟨some 0, 10, 20, 1, 5, 11, 25, 0, 0, true⟩
        ⟨fun _ => ⟨0, 1⟩, fun _ => ⟨0, 100, 1, 2, 0, 100, 0, 1⟩, 0⟩)).ivv 0).performedMax = 0 ∧
    ((worldOf (IntervalVarElement.restore ⟨some 0, 10, 20, 1, 5, 11, 25, 0, 0, true⟩
        ⟨fun _ => ⟨0, 1⟩, fun _ => ⟨0, 100, 1, 2, 0, 100, 0, 1⟩, 0⟩)).ivv 0).startMin = 0 ∧
    ((worldOf (IntervalVarElement.restore ⟨some 0, 10, 20, 1, 5, 11, 25, 0, 0, true⟩
        ⟨fun _ => ⟨0, 1⟩, fun _ => ⟨0, 100, 1, 2, 0, 100, 0, 1⟩, 0⟩)).ivv 0).startMax = 100 := by
  have h := interval_restore_performed_then_timing
    ⟨some 0, 10, 20, 1, 5, 11, 25, 0, 0, true⟩
    ⟨fun _ => ⟨0, 1⟩, fun _ => ⟨0, 100, 1, 2, 0, 100, 0, 1⟩, 0⟩ 0 rfl
  have hb := h.2.1 rfl (by decide)
  have hdq := h.2.2.2.1 rfl
  exact ⟨hb.1, hb.2, hdq.1, hdq.2.1⟩

/-- Restoring an integer element never touches the freeze depth. -/
theorem int_restore_freeze (e : IntVarElement) (w : World) :
    (worldOf (e.restore w)).freeze = w.freeze := by
  simp only [IntVarElement.restore]
  repeat' split
  all_goals simp [worldOf, World.updI]

/-- Restoring an integer element never touches any live interval variable. -/
theorem int_restore_ivv (e : IntVarElement) (w : World) :
    (worldOf (e.restore w)).ivv = w.ivv := by
  simp only [IntVarElement.restore]
  repeat' split
  all_goals simp [worldOf, World.updI]

/-- Restoring an integer element only touches the live integer variable it is
bound to. -/
theorem int_restore_ivar_other (e : IntVarElement) (w : World) (j : Nat)
    (h : e.var_ ≠ some j) :
    (worldOf (e.restore w)).ivar j = w.ivar j := by
  simp only [IntVarElement.restore]
  repeat' split
  all_goals try simp_all [worldOf, World.updI]
  all_goals (intro hji; exact absurd hji.symm h)

/-- Restoring an interval element never touches the freeze depth. -/
theorem interval_restore_freeze (e : IntervalVarElement) (w : World) :
    (worldOf (e.restore w)).freeze = w.freeze := by
  simp only [IntervalVarElement.restore, IntervalVarElement.restoreTiming]
  repeat' split
  all_goals simp [worldOf, World.updIv]

/-- Restoring an interval element never touches any live integer variable. -/
theorem interval_restore_ivar (e : IntervalVarElement) (w : World) :
    (worldOf (e.restore w)).ivar = w.ivar := by
  simp only [IntervalVarElement.restore, IntervalVarElement.restoreTiming]
  repeat' split
  all_goals simp [worldOf, World.updIv]

/-- Restoring an interval element only touches the live interval variable it
is bound to. -/
theorem interval_restore_ivv_other (e : IntervalVarElement) (w : World) (j : Nat)
    (h : e.var_ ≠ some j) :
    (worldOf (e.restore w)).ivv j = w.ivv j := by
  simp only [IntervalVarElement.restore, IntervalVarElement.restoreTiming]
  repeat' split
  all_goals try simp_all [worldOf, World.updIv]
  all_goals (intro hji; exact absurd hji.symm h)

/-- The integer-container restore never touches the freeze depth, on either
the success or the failure path. -/
theorem intContainerRestore_freeze (c : List IntVarElement) (w : World) :
    (worldOf (intContainerRestore c w)).freeze = w.freeze := by
  induction c generalizing w with
  | nil => rfl
  | cons e rest ih =>
    unfold intContainerRestore
    cases hr : e.restore w with
    | error w' =>
      have h := int_restore_freeze e w
      rw [hr] at h
      exact h
    | ok w' =>
      have h := int_restore_freeze e w
      rw [hr] at h
      exact (ih w').trans h

/-- The interval-container restore never touches the freeze depth. -/
theorem intervalContainerRestore_freeze (c : List IntervalVarElement) (w : World) :
    (worldOf (intervalContainerRestore c w)).freeze = w.freeze := by
  induction c generalizing w with
  | nil => rfl
  | cons e rest ih =>
    unfold intervalContainerRestore
    cases hr : e.restore w with
    | error w' =>
      have h := interval_restore_freeze e w
      rw [hr] at h
      exact h
    | ok w' =>
      have h := interval_restore_freeze e w
      rw [hr] at h
      exact (ih w').trans h

/-- The integer-container restore leaves every live integer variable whose
identifier is bound by no element of the container untouched. -/
theorem intContainerRestore_ivar_other (c : List IntVarElement) (w : World)
    (q : Nat) (h : ∀ e ∈ c, e.var_ ≠ some q) :
    (worldOf (intContainerRestore c w)).ivar q = w.ivar q := by
  induction c generalizing w with
  | nil => rfl
  | cons e rest ih =>
    unfold intContainerRestore
    have he : e.var_ ≠ some q := h e (List.mem_cons_self e rest)
    have hrest : ∀ x ∈ rest, x.var_ ≠ some q :=
      fun x hx => h x (List.mem_cons_of_mem e hx)
    cases hr : e.restore w with
    | error w' =>
      have hfr := int_restore_ivar_other e w q he
      rw [hr] at hfr
      exact hfr
    | ok w' =>
      have hfr := int_restore_ivar_other e w q he
      rw [hr] at hfr
      exact (ih w' hrest).trans hfr

/-- The interval-container restore never touches any live integer variable. -/
theorem intervalContainerRestore_ivar (c : List IntervalVarElement) (w : World) :
    (worldOf (intervalContainerRestore c w)).ivar = w.ivar := by
  induction c generalizing w with
  | nil => rfl
  | cons e rest ih =>
    unfold intervalContainerRestore
    cases hr : e.restore w with
    | error w' =>
      have h := interval_restore_ivar e w
      rw [hr] at h
      exact h
    | ok w' =>
      have h := interval_restore_ivar e w
      rw [hr] at h
      exact (ih w').trans h

/-- Counterexample to C2: `Assignment::Restore()` is a straight-line sequence
`FreezeQueue(); restore containers; UnfreezeQueue();` with no guaranteed
release.  Restoring an assignment holding the single integer element [5, 5]
onto a live variable with domain [0, 1] raises a constraint failure inside the
container restore, and the failure propagates before `UnfreezeQueue()` runs:
the notification queue is left suspended (freeze depth 1, not the initial 0). -/
theorem restoreA_unfreeze_counterexample :
    exOk (Assignment.restoreA
        ⟨[⟨some 0, 5, 5, true⟩], [], none, none⟩
        ⟨fun _ => ⟨0, 1⟩, fun _ => ⟨0, 0, 0, 0, 0, 0, 0, 0⟩, 0⟩) = false ∧
      (worldOf (Assignment.restoreA
        ⟨[⟨some 0, 5, 5, true⟩], [], none, none⟩
        ⟨fun _ => ⟨0, 1⟩, fun _ => ⟨0, 0, 0, 0, 0, 0, 0, 0⟩, 0⟩)).freeze = 1 := by
  exact ⟨rfl, rfl⟩

/-- C2 (amended): `Assignment::Restore()` calls `FreezeQueue()` before
restoring any element and `UnfreezeQueue()` only on the normal exit path: when
both container restores succeed the freeze depth returns to its initial value,
but when an individual element's `Restore()` raises a constraint failure the
failure propagates with the queue still frozen (freeze depth one above the
initial value). -/
theorem restoreA_freeze_paths (a : Assignment) (w : World) :
    (exOk (a.restoreA w) = true →
      (worldOf (a.restoreA w)).freeze = w.freeze) ∧
    (exOk (a.restoreA w) = false →
      (worldOf (a.restoreA w)).freeze = w.freeze + 1) := by
  cases h1 : intContainerRestore a.int_var_container (freezeQueue w) with
  | error w' =>
    have hr : a.restoreA w = Except.error w' := by
      simp only [Assignment.restoreA, h1]
    have hf := intContainerRestore_freeze a.int_var_container (freezeQueue w)
    rw [h1] at hf
    constructor
    · intro hok
      rw [hr] at hok
      exact absurd hok (by simp [exOk])
    · intro _
      rw [hr]
      simpa [worldOf, freezeQueue] using hf
  | ok w2 =>
    have hf1 := intContainerRestore_freeze a.int_var_container (freezeQueue w)
    rw [h1] at hf1
    cases h2 : intervalContainerRestore a.interval_var_container w2 with
    | error w' =>
      have hr : a.restoreA w = Except.error w' := by
        simp only [Assignment.restoreA, h1, h2]
      have hf2 := intervalContainerRestore_freeze a.interval_var_container w2
      rw [h2] at hf2
      constructor
      · intro hok
        rw [hr] at hok
        exact absurd hok (by simp [exOk])
      · intro _
        rw [hr]
        simp only [worldOf] at hf1 hf2 ⊢
        rw [hf2, hf1]
        rfl
    | ok w3 =>
      have hr : a.restoreA w = Except.ok (unfreezeQueue w3) := by
        simp only [Assignment.restoreA, h1, h2]
      have hf2 := intervalContainerRestore_freeze a.interval_var_container w2
      rw [h2] at hf2
      constructor
      · intro _
        rw [hr]
        simp only [worldOf] at hf1 hf2 ⊢
        simp [unfreezeQueue, hf2, hf1, freezeQueue]
      · intro hok
        rw [hr] at hok
        exact absurd hok (by simp [exOk])

/-- Witness for C2 (amended): on the success path (empty assignment) the
freeze depth comes back to 0; the failing path of the counterexample input
leaves it at 1. -/
theorem restoreA_freeze_paths_witness :
    (worldOf (Assignment.restoreA Assignment.empty
      ⟨fun _ => ⟨0, 1⟩, fun _ => ⟨0, 0, 0, 0, 0, 0, 0, 0⟩, 0⟩)).freeze = 0 ∧
    (worldOf (Assignment.restoreA
      ⟨[⟨some 0, 5, 5, true⟩], [], none, none⟩
      ⟨fun _ => ⟨0, 1⟩, fun _ => ⟨0, 0, 0, 0, 0, 0, 0, 0⟩, 0⟩)).freeze = 0 + 1 := by
  constructor
  · exact (restoreA_freeze_paths Assignment.empty
      ⟨fun _ => ⟨0, 1⟩, fun _ => ⟨0, 0, 0, 0, 0, 0, 0, 0⟩, 0⟩).1 (by rfl)
  · exact (restoreA_freeze_paths
      ⟨[⟨some 0, 5, 5, true⟩], [], none, none⟩
      ⟨fun _ => ⟨0, 1⟩, fun _ => ⟨0, 0, 0, 0, 0, 0, 0, 0⟩, 0⟩).2 (by rfl)

/-- C10: `Store()` and `Restore()` are asymmetric about the objective.  When
an objective element is present and bound to live variable `q`, `Store()`
reads the live variable's bounds into the objective element; `Restore()`
restores only the two containers and never writes the objective element back,
so a live objective variable tracked by no element of the integer container is
left untouched by `Restore()` (on the success and the failure path alike). -/
theorem store_restore_objective_asymmetry (a : Assignment) (w : World)
    (e : IntVarElement) (q : Nat)
    (hobj : a.obj_element = some e) (hq : e.var_ = some q)
    (hnot : ∀ x ∈ a.int_var_container, x.var_ ≠ some q) :
    (a.storeA w).obj_element
        = some { e with min_ := (w.ivar q).min, max_ := (w.ivar q).max } ∧
      (worldOf (a.restoreA w)).ivar q = w.ivar q := by
  constructor
  · simp [Assignment.storeA, hobj, IntVarElement.store, hq]
  · cases h1 : intContainerRestore a.int_var_container (freezeQueue w) with
    | error w' =>
      have hr : a.restoreA w = Except.error w' := by
        simp only [Assignment.restoreA, h1]
      have hf := intContainerRestore_ivar_other a.int_var_container
        (freezeQueue w) q hnot
      rw [h1] at hf
      rw [hr]
      simpa [worldOf, freezeQueue] using hf
    | ok w2 =>
      have hf1 := intContainerRestore_ivar_other a.int_var_container
        (freezeQueue w) q hnot
      rw [h1] at hf1
      simp only [worldOf] at hf1
      cases h2 : intervalContainerRestore a.interval_var_container w2 with
      | error w' =>
        have hr : a.restoreA w = Except.error w' := by
          simp only [Assignment.restoreA, h1, h2]
        have hf2 := intervalContainerRestore_ivar a.interval_var_container w2
        rw [h2] at hf2
        simp only [worldOf] at hf2
        rw [hr]
        simp only [worldOf]
        rw [congrFun hf2 q, hf1]
        rfl
      | ok w3 =>
        have hr : a.restoreA w = Except.ok (unfreezeQueue w3) := by
          simp only [Assignment.restoreA, h1, h2]
        have hf2 := intervalContainerRestore_ivar a.interval_var_container w2
        rw [h2] at hf2
        simp only [worldOf] at hf2
        rw [hr]
        simp only [worldOf]
        have hu : (unfreezeQueue w3).ivar q = w3.ivar q := rfl
        rw [hu, congrFun hf2 q, hf1]
        rfl

/-- Witness for C10: an assignment whose objective element is bound to live
integer variable 7, with variable 7 tracked by no container element. -/
theorem store_restore_objective_asymmetry_witness :
    (Assignment.storeA ⟨[⟨some 0, 5, 5, true⟩], [], some ⟨some 7, 1, 2, true⟩, some 7⟩
        ⟨fun _ => ⟨0, 1⟩, fun _ => ⟨0, 0, 0, 0, 0, 0, 0, 0⟩, 0⟩).obj_element
      = some ⟨some 7, 0, 1, true⟩ ∧
    (worldOf (Assignment.restoreA
        ⟨[⟨some 0, 5, 5, true⟩], [], some ⟨some 7, 1, 2, true⟩, some 7⟩
        ⟨fun _ => ⟨0, 1⟩, fun _ => ⟨0, 0, 0, 0, 0, 0, 0, 0⟩, 0⟩)).ivar 7
      = (⟨fun _ => ⟨0, 1⟩, fun _ => ⟨0, 0, 0, 0, 0, 0, 0, 0⟩, 0⟩ : World).ivar 7 := by
  have h := store_restore_objective_asymmetry
    ⟨[⟨some 0, 5, 5, true⟩], [], some ⟨some 7, 1, 2, true⟩, some 7⟩
    ⟨fun _ => ⟨0, 1⟩, fun _ => ⟨0, 0, 0, 0, 0, 0, 0, 0⟩, 0⟩
    ⟨some 7, 1, 2, true⟩ 7 rfl rfl (by decide)
  exact ⟨h.1, h.2⟩

/-- Element `Copy` is a full value copy: `IntVarElement::Copy` writes every
field of the target, so the result is the source. -/
theorem intVarElement_copyFrom_eq (x y : IntVarElement) : x.copyFrom y = y := rfl

/-- Element `Copy` for interval elements is likewise a full value copy. -/
theorem intervalVarElement_copyFrom_eq (x y : IntervalVarElement) :
    x.copyFrom y = y := rfl

/-- `Clone` of an integer element reproduces it exactly. -/
theorem intVarElement_clone_eq (e : IntVarElement) : e.clone = e := rfl

/-- Lookup is unchanged by overwriting the elements of an unrelated variable. -/
theorem findElem_map_overwrite {α : Type} (varOf : α → Option Nat)
    (copyE : α → α → α) (acc : List α) (o : α) (v : Option Nat)
    (hcopy : ∀ x y, copyE x y = y) (hne : varOf o ≠ v) :
    findElem varOf (acc.map fun x => if varOf x = varOf o then copyE x o else x) v
      = findElem varOf acc v := by
  induction acc with
  | nil => rfl
  | cons x rest ih =>
    simp only [List.map_cons]
    by_cases hx : varOf x = varOf o
    · rw [if_pos hx, hcopy x o]
      simp only [findElem]
      rw [if_neg hne, if_neg (fun h => hne (hx.symm.trans h))]
      exact ih
    · rw [if_neg hx]
      simp only [findElem]
      by_cases hxv : varOf x = v
      · rw [if_pos hxv, if_pos hxv]
      · rw [if_neg hxv, if_neg hxv]
        exact ih

/-- Lookup is unchanged by appending an element of an unrelated variable. -/
theorem findElem_append_single {α : Type} (varOf : α → Option Nat)
    (acc : List α) (y : α) (v : Option Nat) (hne : varOf y ≠ v) :
    findElem varOf (acc ++ [y]) v = findElem varOf acc v := by
  induction acc with
  | nil =>
    simp only [List.nil_append, findElem]
    rw [if_neg hne]
  | cons x rest ih =>
    simp only [List.cons_append, findElem]
    by_cases hxv : varOf x = v
    · rw [if_pos hxv, if_pos hxv]
    · rw [if_neg hxv, if_neg hxv]
      exact ih

/-- A variable outside the container has no element. -/
theorem hasVar_false_findElem {α : Type} (varOf : α → Option Nat)
    (acc : List α) (v : Option Nat) (h : hasVar varOf acc v = false) :
    findElem varOf acc v = none := by
  induction acc with
  | nil => rfl
  | cons x rest ih =>
    simp only [hasVar] at h
    simp only [findElem]
    by_cases hxv : varOf x = v
    · rw [if_pos hxv] at h
      exact absurd h (by simp)
    · rw [if_neg hxv] at h
      rw [if_neg hxv]
      exact ih h

/-- After overwriting the matching elements with a full value copy of `o`, the
lookup at `o`'s variable returns `o`. -/
theorem findElem_map_overwrite_self {α : Type} (varOf : α → Option Nat)
    (copyE : α → α → α) (acc : List α) (o : α)
    (hcopy : ∀ x y, copyE x y = y) (h : hasVar varOf acc (varOf o) = true) :
    findElem varOf (acc.map fun x => if varOf x = varOf o then copyE x o else x)
      (varOf o) = some o := by
  induction acc with
  | nil => exact absurd h (by simp [hasVar])
  | cons x rest ih =>
    by_cases hx : varOf x = varOf o
    · simp [List.map_cons, if_pos hx, hcopy, findElem]
    · have h' : hasVar varOf rest (varOf o) = true := by
        simpa [hasVar, if_neg hx] using h
      simp only [List.map_cons, if_neg hx, findElem]
      exact ih h'

/-- Appending an element for a variable the container does not yet track makes
the lookup at that variable return it. -/
theorem findElem_append_self {α : Type} (varOf : α → Option Nat)
    (acc : List α) (y : α) (h : findElem varOf acc (varOf y) = none) :
    findElem varOf (acc ++ [y]) (varOf y) = some y := by
  induction acc with
  | nil => simp [findElem]
  | cons x rest ih =>
    simp only [findElem] at h
    by_cases hxv : varOf x = varOf y
    · rw [if_pos hxv] at h
      exact Option.noConfusion h
    · rw [if_neg hxv] at h
      simp only [List.cons_append, findElem]
      rw [if_neg hxv]
      exact ih h

/-- One merge step leaves the lookup of every other variable unchanged. -/
theorem copyStep_findElem_ne {α : Type} (varOf : α → Option Nat)
    (copyE : α → α → α) (freshE : Option Nat → α) (acc : List α) (o : α)
    (v : Option Nat) (hcopy : ∀ x y, copyE x y = y) (hne : varOf o ≠ v) :
    findElem varOf (copyStep varOf copyE freshE acc o) v
      = findElem varOf acc v := by
  unfold copyStep
  split
  · exact findElem_map_overwrite varOf copyE acc o v hcopy hne
  · refine findElem_append_single varOf acc _ v ?_
    rw [hcopy]
    exact hne

/-- One merge step makes the lookup of the merged variable return the merged
element. -/
theorem copyStep_findElem_self {α : Type} (varOf : α → Option Nat)
    (copyE : α → α → α) (freshE : Option Nat → α) (acc : List α) (o : α)
    (hcopy : ∀ x y, copyE x y = y) :
    findElem varOf (copyStep varOf copyE freshE acc o) (varOf o) = some o := by
  unfold copyStep
  split
  · next hhas => exact findElem_map_overwrite_self varOf copyE acc o hcopy hhas
  · next hhas =>
    rw [hcopy]
    refine findElem_append_self varOf acc o ?_
    refine hasVar_false_findElem varOf acc (varOf o) ?_
    simpa using hhas

/-- Container merge-copy frame: a variable tracked by no element of the other
container keeps its lookup in this container. -/
theorem containerCopy_findElem_not_in_other {α : Type} (varOf : α → Option Nat)
    (copyE : α → α → α) (freshE : Option Nat → α) (base other : List α)
    (v : Option Nat) (hcopy : ∀ x y, copyE x y = y) :
    hasVar varOf other v = false →
    findElem varOf (containerCopy varOf copyE freshE base other) v
      = findElem varOf base v := by
  induction other generalizing base with
  | nil => intro _; rfl
  | cons o rest ih =>
    intro hv
    simp only [hasVar] at hv
    by_cases ho : varOf o = v
    · rw [if_pos ho] at hv
      exact absurd hv (by simp)
    · rw [if_neg ho] at hv
      calc findElem varOf (containerCopy varOf copyE freshE base (o :: rest)) v
          = findElem varOf
              (containerCopy varOf copyE freshE
                (copyStep varOf copyE freshE base o) rest) v := rfl
        _ = findElem varOf (copyStep varOf copyE freshE base o) v :=
            ih (copyStep varOf copyE freshE base o) hv
        _ = findElem varOf base v :=
            copyStep_findElem_ne varOf copyE freshE base o v hcopy ho

/-- Container merge-copy: a variable tracked by the (duplicate-free) other
container ends up with exactly the other container's element. -/
theorem containerCopy_findElem_in_other {α : Type} (varOf : α → Option Nat)
    (copyE : α → α → α) (freshE : Option Nat → α) (base other : List α)
    (v : Option Nat) (o' : α) (hcopy : ∀ x y, copyE x y = y) :
    distinctVars varOf other = true →
    findElem varOf other v = some o' →
    findElem varOf (containerCopy varOf copyE freshE base other) v = some o' := by
  induction other generalizing base with
  | nil => intro _ hfind; exact Option.noConfusion hfind
  | cons o rest ih =>
    intro hdis hfind
    have hdis' : hasVar varOf rest (varOf o) = false ∧
        distinctVars varOf rest = true := by
      simpa [distinctVars, Bool.and_eq_true, Bool.not_eq_true'] using hdis
    by_cases ho : varOf o = v
    · have ho' : o' = o := by
        simp only [findElem, if_pos ho] at hfind
        exact (Option.some.inj hfind).symm
      rw [ho', ← ho]
      calc findElem varOf (containerCopy varOf copyE freshE base (o :: rest)) (varOf o)
          = findElem varOf
              (containerCopy varOf copyE freshE
                (copyStep varOf copyE freshE base o) rest) (varOf o) := rfl
        _ = findElem varOf (copyStep varOf copyE freshE base o) (varOf o) :=
            containerCopy_findElem_not_in_other varOf copyE freshE
              (copyStep varOf copyE freshE base o) rest (varOf o) hcopy hdis'.1
        _ = some o := copyStep_findElem_self varOf copyE freshE base o hcopy
    · have hfind' : findElem varOf rest v = some o' := by
        simpa [findElem, if_neg ho] using hfind
      calc findElem varOf (containerCopy varOf copyE freshE base (o :: rest)) v
          = findElem varOf
              (containerCopy varOf copyE freshE
                (copyStep varOf copyE freshE base o) rest) v := rfl
        _ = some o' := ih (copyStep varOf copyE freshE base o) hdis'.2 hfind'

/-- The merged assignment keeps this assignment's objective reference. -/
theorem copyA_objective (a other : Assignment) :
    (a.copyA other).objective = a.objective := by
  simp only [Assignment.copyA]
  split <;> rfl

/-- The merged assignment's integer container is the container merge-copy. -/
theorem copyA_int_container (a other : Assignment) :
    (a.copyA other).int_var_container
      = intContainerCopy a.int_var_container other.int_var_container := by
  simp only [Assignment.copyA]
  split <;> rfl

/-- The merged assignment's interval container is the container merge-copy. -/
theorem copyA_interval_container (a other : Assignment) :
    (a.copyA other).interval_var_container
      = intervalContainerCopy a.interval_var_container
          other.interval_var_container := by
  simp only [Assignment.copyA]
  split <;> rfl

/-- C3: `Assignment::Copy(other)` merges both containers from `other` into
`this` (a variable tracked by no element of `other` keeps its element; a
variable tracked by the duplicate-free `other` gets exactly `other`'s bounds
and activation), and it transfers the objective element's bounds and
activation flag exactly when both assignments have an objective — the
`objective_` reference of `this` is never changed, and when only one or
neither assignment has an objective the objective element of `this` is
entirely unchanged. -/
theorem copyA_merge_and_objective (a other : Assignment) (v u : Option Nat)
    (hd1 : distinctVars IntVarElement.var_ other.int_var_container = true)
    (hd2 : distinctVars IntervalVarElement.var_ other.interval_var_container = true) :
    ((a.copyA other).objective = a.objective) ∧
    (∀ oe me, other.obj_element = some oe → a.obj_element = some me →
      (a.copyA other).obj_element
        = some { me with min_ := oe.min_, max_ := oe.max_,
                         activated_ := oe.activated_ }) ∧
    (other.obj_element = none ∨ a.obj_element = none →
      (a.copyA other).obj_element = a.obj_element) ∧
    (hasVar IntVarElement.var_ other.int_var_container v = false →
      findElem IntVarElement.var_ (a.copyA other).int_var_container v
        = findElem IntVarElement.var_ a.int_var_container v) ∧
    (∀ oe, findElem IntVarElement.var_ other.int_var_container v = some oe →
      findElem IntVarElement.var_ (a.copyA other).int_var_container v = some oe) ∧
    (hasVar IntervalVarElement.var_ other.interval_var_container u = false →
      findElem IntervalVarElement.var_ (a.copyA other).interval_var_container u
        = findElem IntervalVarElement.var_ a.interval_var_container u) ∧
    (∀ oe, findElem IntervalVarElement.var_ other.interval_var_container u = some oe →
      findElem IntervalVarElement.var_ (a.copyA other).interval_var_container u
        = some oe) := by
  refine ⟨copyA_objective a other, ?_, ?_, ?_, ?_, ?_, ?_⟩
  · intro oe me h1 h2
    simp only [Assignment.copyA, h1, h2]
  · intro h
    cases ho : other.obj_element with
    | none => simp only [Assignment.copyA, ho]
    | some oe =>
      rcases h with h | h
      · rw [ho] at h
        exact Option.noConfusion h
      · simp only [Assignment.copyA, ho, h]
  · intro hnot
    rw [copyA_int_container]
    exact containerCopy_findElem_not_in_other IntVarElement.var_
      IntVarElement.copyFrom IntVarElement.ofVar a.int_var_container
      other.int_var_container v intVarElement_copyFrom_eq hnot
  · intro oe hf
    rw [copyA_int_container]
    exact containerCopy_findElem_in_other IntVarElement.var_
      IntVarElement.copyFrom IntVarElement.ofVar a.int_var_container
      other.int_var_container v oe intVarElement_copyFrom_eq hd1 hf
  · intro hnot
    rw [copyA_interval_container]
    exact containerCopy_findElem_not_in_other IntervalVarElement.var_
      IntervalVarElement.copyFrom IntervalVarElement.ofVar
      a.interval_var_container other.interval_var_container u
      intervalVarElement_copyFrom_eq hnot
  · intro oe hf
    rw [copyA_interval_container]
    exact containerCopy_findElem_in_other IntervalVarElement.var_
      IntervalVarElement.copyFrom IntervalVarElement.ofVar
      a.interval_var_container other.interval_var_container u oe
      intervalVarElement_copyFrom_eq hd2 hf

/-- Witness for C3: merging a two-objective pair transfers the objective
bounds and activation but not the objective reference; variable 1 (only in
this) keeps its element, variable 2 (in the other) gets the other's element. -/
theorem copyA_merge_and_objective_witness :
    ((Assignment.copyA ⟨[⟨some 1, 0, 9, true⟩], [], some ⟨some 5, 0, 0, true⟩, some 5⟩
        ⟨[⟨some 2, 3, 4, false⟩], [], some ⟨some 6, 7, 8, false⟩, some 6⟩).objective
      = some 5) ∧
    ((Assignment.copyA ⟨[⟨some 1, 0, 9, true⟩], [], some ⟨some 5, 0, 0, true⟩, some 5⟩
        ⟨[⟨some 2, 3, 4, false⟩], [], some ⟨some 6, 7, 8, false⟩, some 6⟩).obj_element
      = some ⟨some 5, 7, 8, false⟩) ∧
    (findElem IntVarElement.var_
        (Assignment.copyA ⟨[⟨some 1, 0, 9, true⟩], [], some ⟨some 5, 0, 0, true⟩, some 5⟩
          ⟨[⟨some 2, 3, 4, false⟩], [], some ⟨some 6, 7, 8, false⟩, some 6⟩).int_var_container
        (some 1) = some ⟨some 1, 0, 9, true⟩) ∧
    (findElem IntVarElement.var_
        (Assignment.copyA ⟨[⟨some 1, 0, 9, true⟩], [], some ⟨some 5, 0, 0, true⟩, some 5⟩
          ⟨[⟨some 2, 3, 4, false⟩], [], some ⟨some 6, 7, 8, false⟩, some 6⟩).int_var_container
        (some 2) = some ⟨some 2, 3, 4, false⟩) := by
  have h1 := copyA_merge_and_objective
    ⟨[⟨some 1, 0, 9, true⟩], [], some ⟨some 5, 0, 0, true⟩, some 5⟩
    ⟨[⟨some 2, 3, 4, false⟩], [], some ⟨some 6, 7, 8, false⟩, some 6⟩
    (some 1) none rfl rfl
  have h2 := copyA_merge_and_objective
    ⟨[⟨some 1, 0, 9, true⟩], [], some ⟨some 5, 0, 0, true⟩, some 5⟩
    ⟨[⟨some 2, 3, 4, false⟩], [], some ⟨some 6, 7, 8, false⟩, some 6⟩
    (some 2) none rfl rfl
  exact ⟨h1.1, h1.2.1 ⟨some 6, 7, 8, false⟩ ⟨some 5, 0, 0, true⟩ rfl rfl,
    h1.2.2.2.1 rfl, h2.2.2.2.2.1 ⟨some 2, 3, 4, false⟩ rfl⟩

/-- C7: the copy-construction path behind `Clone()` produces a deep value
copy: the clone equals the original on both containers, the objective element
and the objective reference, so its `DebugString()` (under any naming of the
variables) equals the original's; since the embedding is by value and the
C++ copy duplicates both containers by value and clones the objective element,
later mutation of the clone cannot change any field of the original. -/
theorem cloneA_value_copy (a : Assignment) (names : Option Nat → String)
    (hinv : a.obj_element = none → a.objective = none) :
    a.cloneA = a ∧
      Assignment.debugString names a.cloneA = Assignment.debugString names a := by
  have h : a.cloneA = a := by
    cases a with
    | mk ic vc oe obj =>
      cases oe with
      | some e => simp [Assignment.cloneA, intVarElement_clone_eq]
      | none =>
        have hobj : obj = none := hinv rfl
        subst hobj
        simp [Assignment.cloneA]
  exact ⟨h, by rw [h]⟩

/-- Witness for C7 at a concrete assignment holding one element of each kind
and an objective. -/
theorem cloneA_value_copy_witness :
    Assignment.cloneA ⟨[⟨some 1, 2, 3, true⟩], [⟨some 2, 1, 2, 3, 4, 5, 6, 0, 1, true⟩],
        some ⟨some 5, 7, 7, true⟩, some 5⟩
      = ⟨[⟨some 1, 2, 3, true⟩], [⟨some 2, 1, 2, 3, 4, 5, 6, 0, 1, true⟩],
        some ⟨some 5, 7, 7, true⟩, some 5⟩ ∧
    Assignment.debugString (fun _ => "v")
        (Assignment.cloneA ⟨[⟨some 1, 2, 3, true⟩], [⟨some 2, 1, 2, 3, 4, 5, 6, 0, 1, true⟩],
          some ⟨some 5, 7, 7, true⟩, some 5⟩)
      = Assignment.debugString (fun _ => "v")
        ⟨[⟨some 1, 2, 3, true⟩], [⟨some 2, 1, 2, 3, 4, 5, 6, 0, 1, true⟩],
          some ⟨some 5, 7, 7, true⟩, some 5⟩ := by
  exact cloneA_value_copy
    ⟨[⟨some 1, 2, 3, true⟩], [⟨some 2, 1, 2, 3, 4, 5, 6, 0, 1, true⟩],
      some ⟨some 5, 7, 7, true⟩, some 5⟩
    (fun _ => "v") (by intro h; exact Option.noConfusion h)

end Assign
